import Mathlib

/-!
Verification development for the restaurant-automation funding-news pipeline
(`funding_scraper.py` and `analyze_and_email.py`).

Modelling conventions:
* Python `float` values are idealized as exact decimals `m * 10^e` extended
  with `nan` / `inf` / `-inf`; decimal-string parsing is exact (no binary
  rounding). Specification-side statements use the rational value `Dec.toRat`.
* Python `str.lower()` is modelled ASCII-only (`Char.toLower`); every keyword
  lexicon in the sources is ASCII, and each theorem uses the same lowering on
  both sides, so no claim depends on non-ASCII case folding.
* Calendar dates are modelled by their rank (days since 1970-01-01, `ℤ`) with
  exact proleptic-Gregorian conversions; `timedelta(days=n)` is rank
  subtraction and Python `date` comparison is rank order.
* A pandas cell is a `Cell`: a string, the float `NaN` (missing value read
  from a CSV), or Python `None` (value of a synthesized missing column).
-/

/-! ## Character/string helpers (models of the Python string primitives) -/

/-- Model of Python whitespace stripped by `str.strip()` / `float()` (ASCII part). -/
def isPyWs (c : Char) : Bool :=
  c = ' ' || c = '\t' || c = '\n' || c = '\r' || c = '\x0b' || c = '\x0c'

/-- Strip leading and trailing whitespace from a character list (`str.strip()`). -/
def lcStrip (l : List Char) : List Char :=
  ((l.dropWhile isPyWs).reverse.dropWhile isPyWs).reverse

/-- ASCII lower-casing of a character list (model of `str.lower()`). -/
def lcLower (l : List Char) : List Char := l.map Char.toLower

/-- ASCII lower-casing of a string (model of `str.lower()`). -/
def strLower (s : String) : String := String.mk (lcLower s.data)

/-- Contiguous-substring test on character lists: model of Python `needle in hay`. -/
def lcContainsSub : List Char → List Char → Bool
  | [], need => need.isEmpty
  | h :: t, need => need.isPrefixOf (h :: t) || lcContainsSub t need

/-- Substring test on strings (Python `needle in hay`). -/
def strContainsSub (hay need : String) : Bool := lcContainsSub hay.data need.data

/-! ## Proleptic Gregorian calendar (models of `datetime.date` arithmetic)

A date is represented by its rank: the number of days since 1970-01-01.
The conversions are the standard civil-calendar algorithms. -/

/-- Rank (days since 1970-01-01) of the civil date `y-m-d`. -/
def daysFromCivil (y m d : Int) : Int :=
  let y' := if m ≤ 2 then y - 1 else y
  let era := Int.fdiv y' 400
  let yoe := y' - era * 400
  let mp := Int.emod (m + 9) 12
  let doy := Int.fdiv (153 * mp + 2) 5 + d - 1
  let doe := yoe * 365 + Int.fdiv yoe 4 - Int.fdiv yoe 100 + doy
  era * 146097 + doe - 719468

/-- Civil date `(y, m, d)` of a rank (days since 1970-01-01). -/
def civilFromDays (z0 : Int) : Int × Int × Int :=
  let z := z0 + 719468
  let era := Int.fdiv z 146097
  let doe := z - era * 146097
  let yoe := Int.fdiv (doe - Int.fdiv doe 1460 + Int.fdiv doe 36524 - Int.fdiv doe 146096) 365
  let y := yoe + era * 400
  let doy := doe - (365 * yoe + Int.fdiv yoe 4 - Int.fdiv yoe 100)
  let mp := Int.fdiv (5 * doy + 2) 153
  let d := doy - Int.fdiv (153 * mp + 2) 5 + 1
  let m := if mp < 10 then mp + 3 else mp - 9
  (if m ≤ 2 then y + 1 else y, m, d)

/-- Year of the civil date with the given rank (model of `date.year`). -/
def civilYear (z : Int) : Int := (civilFromDays z).1

/-- Gregorian leap-year test. -/
def isLeap (y : Int) : Bool :=
  (Int.emod y 4 = 0 && Int.emod y 100 ≠ 0) || Int.emod y 400 = 0

/-- Number of days in month `m` of year `y`. -/
def daysInMonth (y m : Int) : Int :=
  if m = 2 then (if isLeap y then 29 else 28)
  else if m = 4 || m = 6 || m = 9 || m = 11 then 30
  else 31

/-! ## Python floats, idealized

A finite Python float is idealized as an exact decimal `m * 10^e` (`Dec`);
this keeps every computation in `Int`/`Nat` (kernel-evaluable) while the
specification-side statements speak of the rational value `Dec.toRat`.
`PyFloat` adds the non-finite values `nan` / `inf` / `-inf` that Python
`float(...)` can also produce. -/

structure Dec where
  m : Int
  e : Int
deriving DecidableEq, Repr

/-- Rational value of an exact decimal. -/
def Dec.toRat (d : Dec) : ℚ := (d.m : ℚ) * (10 : ℚ) ^ d.e

inductive PyFloat where
  | finite (d : Dec)
  | nan
  | inf
  | ninf
deriving DecidableEq, Repr

/-- Digits of a character list read as a base-10 natural number. -/
def digitsToNat (l : List Char) : Nat :=
  l.foldl (fun a c => a * 10 + (c.toNat - 48)) 0

/-- Split a character list into its leading run of ASCII digits and the rest. -/
def takeDigits (l : List Char) : List Char × List Char :=
  (l.takeWhile Char.isDigit, l.dropWhile Char.isDigit)

/-- Parse an unsigned decimal literal (`digits[.digits]` or `.digits`, with an
optional `e`/`E` exponent), consuming the whole list; model of the finite
branch of Python `float(...)`, as an exact decimal. -/
def parseDecimal (l : List Char) : Option Dec :=
  let (ip, r1) := takeDigits l
  let (fp, r2) := match r1 with
    | '.' :: t => takeDigits t
    | _ => ([], r1)
  if ip.isEmpty && fp.isEmpty then none
  else
    let m0 : Int := (digitsToNat ip : Int) * 10 ^ fp.length + (digitsToNat fp : Int)
    let e0 : Int := -(fp.length : Int)
    match r2 with
    | [] => some ⟨m0, e0⟩
    | 'e' :: t | 'E' :: t =>
      let (es, t2) : Int × List Char := match t with
        | '+' :: u => (1, u)
        | '-' :: u => (-1, u)
        | _ => (1, t)
      let (ed, t3) := takeDigits t2
      if ed.isEmpty || !t3.isEmpty then none
      else some ⟨m0, e0 + es * (digitsToNat ed : Int)⟩
    | _ => none

/-- Model of Python `float(s)` on a character list: strips whitespace, reads an
optional sign, then `nan` / `inf` / `infinity` (case-insensitively) or a
decimal literal. Returns `none` where Python raises `ValueError`.
(Idealization: finite values are exact decimals, with no binary rounding;
digit-group underscores are not modelled.) -/
def pyFloatOfChars (l0 : List Char) : Option PyFloat :=
  let l1 := lcStrip l0
  let (neg, l2) : Bool × List Char := match l1 with
    | '+' :: t => (false, t)
    | '-' :: t => (true, t)
    | _ => (false, l1)
  let ll := lcLower l2
  if ll = "nan".data then some .nan
  else if ll = "inf".data || ll = "infinity".data then
    some (if neg then .ninf else .inf)
  else
    match parseDecimal l2 with
    | some d => some (.finite (if neg then ⟨-d.m, d.e⟩ else d))
    | none => none

/-- Multiplication of a Python float by `10^k` (the scale factors 10^9, 10^6,
10^3 of the source); on an exact decimal this shifts the exponent. -/
def pyMulPow10 : PyFloat → Nat → PyFloat
  | .finite d, k => .finite ⟨d.m, d.e + (k : Int)⟩
  | .nan, _ => .nan
  | .inf, _ => .inf
  | .ninf, _ => .ninf

/-- Model of Python `int(x)` on a finite float given as an exact decimal:
truncation toward zero. -/
def pyTruncDec (d : Dec) : Int :=
  if 0 ≤ d.e then d.m * 10 ^ d.e.toNat else Int.tdiv d.m (10 ^ (-d.e).toNat)

/-- Truncation toward zero of a rational (the value of Python `int(x)` on a
finite float `x`). -/
def ratTrunc (q : ℚ) : Int := if 0 ≤ q then ⌊q⌋ else ⌈q⌉

instance {ε α : Type} [DecidableEq ε] [DecidableEq α] : DecidableEq (Except ε α)
  | .error a, .error b =>
    if h : a = b then .isTrue (congrArg Except.error h)
    else .isFalse (fun hh => h (Except.error.inj hh))
  | .error _, .ok _ => .isFalse Except.noConfusion
  | .ok _, .error _ => .isFalse Except.noConfusion
  | .ok a, .ok b =>
    if h : a = b then .isTrue (congrArg Except.ok h)
    else .isFalse (fun hh => h (Except.ok.inj hh))

/-! ## `funding_scraper.py`: amount normalization -/

/-- Embedding of `normalize_amount(num_str, scale)` (funding_scraper.py:106-118).
`Except.error` models the uncaught `ValueError`/`OverflowError` raised by the
final `int(num)` when the parsed float is `nan` or infinite (that call sits
outside the `try` block). `Except.ok none` is Python `return None`. -/
def normalize_amount (num_str : String) (scale : Option String) : Except String (Option Int) :=
  match pyFloatOfChars (num_str.data.filter (fun c => c ≠ ',')) with
  | none => .ok none
  | some f =>
    let sl := strLower (scale.getD "")
    let f1 :=
      if sl = "billion" || sl = "bn" || sl = "b" then pyMulPow10 f 9
      else if sl = "million" || sl = "mm" || sl = "m" then pyMulPow10 f 6
      else if sl = "thousand" || sl = "k" then pyMulPow10 f 3
      else f
    match f1 with
    | .finite d => .ok (some (pyTruncDec d))
    | _ => .error "int() of non-finite float"

/-- Scale factor table as the specification words it: billion/bn/b → 10^9,
million/mm/m → 10^6, thousand/k → 10^3, absent → 1 (case-insensitive). -/
def claimScaleFactor (scale : Option String) : ℚ :=
  let sl := strLower (scale.getD "")
  if sl = "billion" || sl = "bn" || sl = "b" then 1000000000
  else if sl = "million" || sl = "mm" || sl = "m" then 1000000
  else if sl = "thousand" || sl = "k" then 1000
  else 1

/-- The nine scale tokens recognized by `normalize_amount` (lower-cased). -/
def recognizedScales : List String :=
  ["billion", "bn", "b", "million", "mm", "m", "thousand", "k"]

/-! ## `funding_scraper.py`: lexicons and constants -/

/-- `FUNDING_HARD_KEYWORDS` (funding_scraper.py:61-66). -/
def FUNDING_HARD_KEYWORDS : List String :=
  ["raises", "raised", "raise", "funding", "series a", "series b", "series c",
   "series d", "seed round", "pre-seed", "angel round", "investment round",
   "round led by", "led by", "backs", "invests in", "equity financing",
   "venture funding"]

/-- `JOB_DOMAINS` (funding_scraper.py:71-76). -/
def JOB_DOMAINS : List String :=
  ["talents.vaia.com", "boards.greenhouse.io", "jobs.lever.co", "lever.co",
   "careers.google.com", "jobs.workable.com", "workable.com", "smartrecruiters.com",
   "indeed.com", "linkedin.com", "glassdoor.com", "angel.co", "wellfound.com",
   "monster.com", "ziprecruiter.com", "jobvite.com"]

/-- `JOB_KEYWORDS` (funding_scraper.py:77-80). -/
def JOB_KEYWORDS : List String :=
  ["job", "jobs", "career", "careers", "apply", "hiring", "recruit", "recruiting",
   "talent", "vacancy", "position", "opening", "role"]

/-- `MIN_YEAR` (funding_scraper.py:83). -/
def MIN_YEAR : Int := 2018

/-- `MIN_AMOUNT_FOR_SIGNAL` (funding_scraper.py:84). -/
def MIN_AMOUNT_FOR_SIGNAL : Int := 100000

/-! ## `funding_scraper.py`: job/career skipping -/

/-- Characters after the first `"//"` up to the first `/`, `?` or `#`: model of
`urlparse(link).netloc` for the well-formed absolute URLs the scraper sees. -/
def netlocChars : List Char → List Char
  | [] => []
  | '/' :: '/' :: t => t.takeWhile (fun c => c != '/' && c != '?' && c != '#')
  | _ :: t => netlocChars t

/-- Fuel-driven worker for `lcReplaceWWW` (left-to-right, non-overlapping
replacement of every occurrence of `"www."` by the empty string, as Python
`str.replace("www.", "")`). -/
def lcReplaceWWWAux : Nat → List Char → List Char
  | 0, s => s
  | fuel + 1, s =>
    match s with
    | [] => []
    | h :: t =>
      if ['w', 'w', 'w', '.'].isPrefixOf (h :: t) then lcReplaceWWWAux fuel (t.drop 3)
      else h :: lcReplaceWWWAux fuel t

/-- Model of `str.replace("www.", "")`. -/
def lcReplaceWWW (s : List Char) : List Char := lcReplaceWWWAux s.length s

/-- Model of `urlparse(link).netloc.replace("www.", "").lower()`
(funding_scraper.py:191). -/
def hostOf (link : String) : String :=
  String.mk (lcLower (lcReplaceWWW (netlocChars link.data)))

/-- Embedding of `should_skip_result(link, title)` (funding_scraper.py:189-203). -/
def should_skip_result (link title : String) : Bool :=
  let host := hostOf link
  let tl := strLower title
  let lk := strLower link
  if JOB_DOMAINS.contains host then true
  else if JOB_KEYWORDS.any (fun k => strContainsSub tl k || strContainsSub lk k) then true
  else false

/-! ## `funding_scraper.py`: the date gate and funding-signal gate of `main` -/

/-- Embedding of the date gate (funding_scraper.py:301-314): `pub_date` is the
resolved publish date (rank), `none` when no date resolved; `now` is
`datetime.utcnow().date()`; `days` is the `--days` window. -/
def date_gate (pub_date : Option Int) (now : Int) (days : Nat) : Bool :=
  match pub_date with
  | none => false
  | some dt =>
    let cutoff := now - (days : Int)
    if dt < cutoff || civilYear dt < MIN_YEAR || now < dt then false else true

/-- The text signal of the funding gate: some hard keyword occurs in the
lower-cased title or snippet (funding_scraper.py:320). -/
def text_signal (title snippet : String) : Bool :=
  FUNDING_HARD_KEYWORDS.any (fun k =>
    strContainsSub (strLower title) k || strContainsSub (strLower snippet) k)

/-- Embedding of the funding-signal gate for a candidate whose HTML was fetched
(funding_scraper.py:316-333). `amount` is the row's extracted `amount_usd`
(`none` for the empty string), `round` the extracted round label. -/
def funding_signal_gate (title snippet : String) (amount : Option Int) (round : String) : Bool :=
  let amt_signal := MIN_AMOUNT_FOR_SIGNAL ≤ amount.getD 0
  let rnd_signal := round ≠ ""
  text_signal title snippet || amt_signal || rnd_signal

/-- Embedding of the no-HTML fallback (funding_scraper.py:335-340): with no
fetched HTML the row is kept exactly when the hard-keyword signal fires on the
search-result title/snippet. -/
def no_html_keep (title snippet : String) : Bool :=
  text_signal title snippet

/-! ## `funding_scraper.py`: amount selection of `extract_article_fields`

The regex scan `AMOUNT_PAT.finditer(text)` is abstracted by its output: the
list of `(numeral-group, scale-group)` matches, in text order. The loop body
and the final `max` (funding_scraper.py:124-130) are embedded faithfully,
including the truthiness test `if amt and ...` and the propagation of the
exception `normalize_amount` can raise. -/

/-- The values `normalize_amount` yields on each match, in order
(error-propagating, as an uncaught exception aborts the loop). -/
def normalize_all : List (String × Option String) → Except String (List (Option Int))
  | [] => .ok []
  | (s, sc) :: rest =>
    match normalize_amount s sc with
    | .error e => .error e
    | .ok a =>
      match normalize_all rest with
      | .error e => .error e
      | .ok tail => .ok (a :: tail)

/-- The `amounts` list built by the loop of funding_scraper.py:125-129,
including the truthiness guard `if amt and 10_000 <= amt <= 10_000_000_000`. -/
def extract_amounts : List (String × Option String) → Except String (List Int)
  | [] => .ok []
  | (s, sc) :: rest =>
    match normalize_amount s sc with
    | .error e => .error e
    | .ok a =>
      match extract_amounts rest with
      | .error e => .error e
      | .ok tail =>
        match a with
        | some v =>
          if v ≠ 0 && (10000 ≤ v && v ≤ 10000000000) then .ok (v :: tail) else .ok tail
        | none => .ok tail

/-- Maximum of a list of integers (`max(...)`), `none` on the empty list
(Python: `max(amounts) if amounts else ""`). -/
def listMax : List Int → Option Int
  | [] => none
  | h :: t =>
    match listMax t with
    | none => some h
    | some m => some (max h m)

/-- The `amount` field selected by `extract_article_fields`
(funding_scraper.py:124-130), given the amount-pattern matches. -/
def select_amount (ms : List (String × Option String)) : Except String (Option Int) :=
  (extract_amounts ms).map listMax

/-- The surviving amounts as the specification words them: the normalized
amounts that lie inside the closed interval `[10000, 10000000000]`. -/
def spec_survivors (vs : List (Option Int)) : List Int :=
  (vs.filterMap id).filter (fun a => 10000 ≤ a && a ≤ 10000000000)

/-! ## `analyze_and_email.py`: cells, configuration and tagging -/

/-- A pandas cell of the loaded CSV: a string value, the float `NaN` (a missing
value in the file), or Python `None` (the fill of a synthesized missing
column). -/
inductive Cell where
  | str (s : String)
  | nan
  | pynone
deriving DecidableEq, Repr

/-- Model of the Python idiom `str(x or "")` applied to a cell: a string is
itself (`"" or ""` is `""`), `NaN` is truthy so `str` renders it as `"nan"`,
`None` is falsy so the result is `""`. -/
def strOrEmpty : Cell → String
  | .str s => s
  | .nan => "nan"
  | .pynone => ""

/-- Model of `Series.astype(str)` on one cell: `str()` renders `NaN` as
`"nan"` and `None` as `"None"`. -/
def astypeStr : Cell → String
  | .str s => s
  | .nan => "nan"
  | .pynone => "None"

/-- Model of `.astype(str).fillna("")` (analyze_and_email.py:103): after
`astype(str)` the column holds no nulls, so the `fillna("")` is the identity. -/
def coerce_str (c : Cell) : String := astypeStr c

/-- `BIG_ROUND_USD` (analyze_and_email.py:24). -/
def BIG_ROUND_USD : Int := 10000000

/-- `NOTABLE_INVESTORS` (analyze_and_email.py:25-29). -/
def NOTABLE_INVESTORS : List String :=
  ["Sequoia", "Andreessen Horowitz", "a16z", "Accel", "Lightspeed",
   "SoftBank", "Tiger Global", "Temasek", "GGV", "DST", "Index Ventures",
   "General Catalyst", "Founders Fund", "Y Combinator", "YC", "Khosla"]

/-- Embedding of `tag_row(row)` (analyze_and_email.py:42-61). In the pipeline
it runs after the amount column was coerced to integers, so `amount_usd` is an
`Int` (the `isinstance` guard always holds); `investors` and `round` are still
raw cells. -/
def tag_row (amount_usd : Int) (investors round : Cell) : String :=
  let tags : List String := []
  let tags := if BIG_ROUND_USD ≤ amount_usd then tags ++ ["大额"] else tags
  let inv_text := strOrEmpty investors
  let tags :=
    if NOTABLE_INVESTORS.any (fun name => strContainsSub (strLower inv_text) (strLower name))
    then tags ++ ["知名投资方"] else tags
  let rnd := strOrEmpty round
  let tags := if rnd ≠ "" then tags ++ [rnd] else tags
  String.intercalate ", " tags

/-! ## `analyze_and_email.py`: loading, filtering, sorting -/

/-- Parse an ISO `YYYY-MM-DD` date to its rank, validating month and day.
Modelled from the spec: `pd.to_datetime` accepts many formats, but the
pipeline's own `pub_date` values are the ISO dates the scraper writes; the
model parses exactly those (anything else is `none`, as an unparseable date). -/
def isoParse (l : List Char) : Option Int :=
  match l with
  | [y1, y2, y3, y4, '-', m1, m2, '-', d1, d2] =>
    if (y1.isDigit && y2.isDigit && y3.isDigit && y4.isDigit &&
        m1.isDigit && m2.isDigit && d1.isDigit && d2.isDigit) then
      let y : Int := (digitsToNat [y1, y2, y3, y4] : Int)
      let m : Int := (digitsToNat [m1, m2] : Int)
      let d : Int := (digitsToNat [d1, d2] : Int)
      if 1 ≤ m && m ≤ 12 && 1 ≤ d && d ≤ daysInMonth y m then
        some (daysFromCivil y m d)
      else none
    else none
  | _ => none

/-- Embedding of `parse_date(s)` (analyze_and_email.py:63-69): `None` and
`NaN` and blank strings parse to `none`; otherwise a defensive date parse
(`none` on failure, never an error). -/
def parse_date (c : Cell) : Option Int :=
  match c with
  | .pynone => none
  | .nan => none
  | .str s => if (lcStrip s.data).isEmpty then none else isoParse s.data

/-- Model of `pd.to_numeric(x, errors="coerce")` on one cell: the float it
yields. Only parse *errors* are coerced to `NaN`; the strings `"inf"`,
`"-inf"`, `"infinity"` parse to infinities and `"nan"` to `NaN`, and a
missing value stays `NaN`. -/
def pd_to_numeric (c : Cell) : PyFloat :=
  match c with
  | .str s =>
    match pyFloatOfChars s.data with
    | some f => f
    | none => .nan
  | .nan => .nan
  | .pynone => .nan

/-- `fillna(0)` on one cell of the numeric column: `NaN` becomes 0, every
other float is unchanged. -/
def fillna0 (f : PyFloat) : PyFloat :=
  match f with
  | .nan => .finite ⟨0, 0⟩
  | f => f

/-- Smallest int64 value (the bound of numpy's `astype(int)` cast). -/
def INT64_MIN : Int := -(2 ^ 63)

/-- Largest int64 value (the bound of numpy's `astype(int)` cast). -/
def INT64_MAX : Int := 2 ^ 63 - 1

/-- Model of `Series.astype(int)` on one float cell: raises
(`"Cannot convert non-finite values (NA or inf) to integer"`) on a non-finite
value, and truncates toward zero when the truncation fits in int64. For an
out-of-range finite value the cast is platform-dependent garbage (x86-64
yields the indefinite value `INT64_MIN`, other platforms saturate
differently); the model uses `INT64_MIN` there and no theorem certifies that
case. -/
def astype_int64 (f : PyFloat) : Except String Int :=
  match f with
  | .finite d =>
    let t := pyTruncDec d
    if INT64_MIN ≤ t ∧ t ≤ INT64_MAX then .ok t else .ok INT64_MIN
  | _ => .error "Cannot convert non-finite values (NA or inf) to integer"

/-- The amount coercion
`pd.to_numeric(col, errors="coerce").fillna(0).astype(int)`
(analyze_and_email.py:90) on one cell. `Except.error` models the exception
`astype(int)` raises on an infinite value — in the program it aborts the
whole `load_and_filter` call. -/
def amount_coerce (c : Cell) : Except String Int :=
  astype_int64 (fillna0 (pd_to_numeric c))

/-- Total projection of `amount_coerce` used by the pipeline model
(`filter_recent`), which has no exception channel: on the error path — a cell
like `"inf"`, where the real program raises in `astype(int)` and aborts the
whole load — this projection yields the artifact value 0. Claims about the
coercion itself are stated on `amount_coerce`, never on that artifact. -/
def to_amount_int (c : Cell) : Int :=
  match amount_coerce c with
  | .ok t => t
  | .error _ => 0

/-- A raw CSV row as loaded (after the synthesized-column fallback every
consumed column exists; a cell may be `NaN` or `None`). -/
structure RawRow where
  title : Cell
  amount_usd : Cell
  round : Cell
  investors : Cell
  pub_date : Cell
  source_domain : Cell
  source_url : Cell
  query : Cell
  snippet : Cell
deriving DecidableEq, Repr

/-- A row of `df_recent` after the date filter and the amount coercion:
`pub_date_parsed` is non-null and the amount is an integer. -/
structure MidRow where
  raw : RawRow
  pub_date_parsed : Int
  amount_int : Int
deriving DecidableEq, Repr

/-- Embedding of the window filter and the amount coercion
(analyze_and_email.py:83-90): keep rows with a parsed date on/after
`now - days`, and coerce their amount. -/
def filter_recent (rows : List RawRow) (now : Int) (days : Nat) : List MidRow :=
  rows.filterMap fun r =>
    match parse_date r.pub_date with
    | none => none
    | some d =>
      if now - (days : Int) ≤ d then some ⟨r, d, to_amount_int r.amount_usd⟩ else none

/-- The sort order of `sort_values(by=["pub_date_parsed","amount_usd"],
ascending=[False,False])`: `a` may come before `b` when `a`'s date is later,
or dates are equal and `a`'s amount is at least `b`'s. -/
def rowLE (a b : MidRow) : Prop :=
  b.pub_date_parsed < a.pub_date_parsed ∨
    (a.pub_date_parsed = b.pub_date_parsed ∧ b.amount_int ≤ a.amount_int)

instance : DecidableRel rowLE := fun _ _ =>
  inferInstanceAs (Decidable (_ ∨ _))

instance : IsTotal MidRow rowLE where
  total a b := by
    unfold rowLE
    omega

instance : IsTrans MidRow rowLE where
  trans a b c hab hbc := by
    unfold rowLE at hab hbc ⊢
    omega

/-- Embedding of the sort (analyze_and_email.py:91). A multi-column
`sort_values` uses pandas' stable lexicographic sort (`numpy.lexsort`), so the
model is a stable sort by `rowLE`. -/
def sortRows (rows : List MidRow) : List MidRow :=
  List.insertionSort rowLE rows

/-- A digest row as returned by `load_and_filter`. -/
structure DigestRow where
  date : Int
  amount_usd_int : Int
  title : String
  round : String
  investors : String
  source_domain : String
  source_url : String
  query : String
  snippet : String
  tags : String
deriving DecidableEq, Repr

/-- Per-row assembly of the tag computation (analyze_and_email.py:94), the
column selection/renaming (97-99) and the string coercion (102-103). -/
def digestOf (m : MidRow) : DigestRow :=
  { date := m.pub_date_parsed
  , amount_usd_int := m.amount_int
  , title := coerce_str m.raw.title
  , round := coerce_str m.raw.round
  , investors := coerce_str m.raw.investors
  , source_domain := coerce_str m.raw.source_domain
  , source_url := coerce_str m.raw.source_url
  , query := coerce_str m.raw.query
  , snippet := coerce_str m.raw.snippet
  , tags := coerce_str (.str (tag_row m.amount_int m.raw.investors m.raw.round)) }

/-- Embedding of `load_and_filter(csv_path, days)` (analyze_and_email.py:71-105)
on the parsed rows of the CSV: date filter + amount coercion, stable sort by
(date desc, amount desc), tagging, string coercion. -/
def load_and_filter (rows : List RawRow) (now : Int) (days : Nat) : List DigestRow :=
  (sortRows (filter_recent rows now days)).map digestOf

/-- A raw row with the given title and all other cells blank (used for
concrete examples). -/
def exRaw (t : String) : RawRow :=
  ⟨.str t, .str "", .str "", .str "", .str "", .str "", .str "", .str "", .str ""⟩

/-- A `df_recent` row with the given title, parsed date and amount (used for
concrete examples). -/
def exMid (t : String) (d a : Int) : MidRow := ⟨exRaw t, d, a⟩

/-- A concrete raw row with a missing (`NaN`) investors cell (used to settle
the string-coercion claim). -/
def exRawC8 : RawRow :=
  ⟨.str "T", .str "5000000", .str "", Cell.nan, .str "2024-05-01",
   .str "d.com", .str "http://d.com/a", .str "q", .str "s"⟩

/-- The digest row `load_and_filter` produces from `exRawC8`. -/
def exDigestC8 : DigestRow :=
  ⟨daysFromCivil 2024 5 1, 5000000, "T", "", "nan", "d.com", "http://d.com/a", "q", "s", ""⟩

/-- A concrete raw row with a negative stored amount (used to settle the
amount-coercion claim). -/
def exRawC9 : RawRow :=
  ⟨.str "T", .str "-5", .str "", .str "X", .str "2024-05-01",
   .str "d.com", .str "u", .str "q", .str "s"⟩

/-- The `df_recent` row `filter_recent` produces from `exRawC9`. -/
def exMidC9 : MidRow := ⟨exRawC9, daysFromCivil 2024 5 1, -5⟩

/-! ## Specification-side predicates -/

/-- `need` occurs as a contiguous substring of `hay`: the Python `in`
relation, stated structurally (specification side). -/
def OccursIn (need hay : List Char) : Prop :=
  ∃ pre post, pre ++ need ++ post = hay

/-- Some keyword of `ks` occurs, case-insensitively, in `title` or `snippet`
(specification side). -/
def KeywordHit (ks : List String) (title snippet : String) : Prop :=
  ∃ k ∈ ks, OccursIn k.data (strLower title).data ∨ OccursIn k.data (strLower snippet).data

/-! ## Bridge lemmas: exact-decimal truncation vs. rational truncation -/

theorem ratTrunc_intCast (z : ℤ) : ratTrunc (z : ℚ) = z := by
  unfold ratTrunc
  split
  · exact Int.floor_intCast z
  · exact Int.ceil_intCast z

theorem ratTrunc_intCast_div_natCast (a : ℤ) (b : ℕ) (hb : 0 < b) :
    ratTrunc ((a : ℚ) / (b : ℚ)) = Int.tdiv a (b : ℤ) := by
  have hb2 : (0 : ℚ) < (b : ℚ) := by exact_mod_cast hb
  rcases le_or_lt 0 a with ha | ha
  · have hq : (0 : ℚ) ≤ (a : ℚ) / (b : ℚ) :=
      div_nonneg (by exact_mod_cast ha) hb2.le
    rw [ratTrunc, if_pos hq, Rat.floor_intCast_div_natCast,
      Int.tdiv_eq_ediv ha (by positivity)]
  · have hq : (a : ℚ) / (b : ℚ) < 0 :=
      div_neg_of_neg_of_pos (by exact_mod_cast ha) hb2
    rw [ratTrunc, if_neg (not_le.mpr hq)]
    have h1 : (a : ℚ) = -(((-a : ℤ) : ℚ)) := by push_cast; ring
    have h2 : Int.tdiv (-a) (b : ℤ) = (-a) / (b : ℤ) :=
      Int.tdiv_eq_ediv (by omega) (by positivity)
    rw [h1, neg_div, Int.ceil_neg, Rat.floor_intCast_div_natCast, ← h2,
      Int.neg_tdiv, neg_neg]

theorem pyTruncDec_eq (d : Dec) : pyTruncDec d = ratTrunc d.toRat := by
  unfold pyTruncDec Dec.toRat
  split
  · next h =>
    obtain ⟨n, hn⟩ : ∃ n : ℕ, d.e = (n : ℤ) := ⟨d.e.toNat, (Int.toNat_of_nonneg h).symm⟩
    rw [hn, zpow_natCast]
    simp only [Int.toNat_natCast]
    rw [show (d.m : ℚ) * (10 : ℚ) ^ n = ((d.m * 10 ^ n : ℤ) : ℚ) by push_cast; ring,
      ratTrunc_intCast]
  · next h =>
    obtain ⟨n, hn⟩ : ∃ n : ℕ, d.e = -(n : ℤ) := ⟨(-d.e).toNat, by omega⟩
    rw [hn, zpow_neg, zpow_natCast]
    simp only [neg_neg, Int.toNat_natCast]
    have h1 : (d.m : ℚ) * ((10 : ℚ) ^ n)⁻¹ = (d.m : ℚ) / (((10 ^ n : ℕ) : ℚ)) := by
      push_cast
      ring
    rw [h1, ratTrunc_intCast_div_natCast d.m (10 ^ n) (by positivity)]
    congr 1
    push_cast
    ring

theorem toRat_shift (d : Dec) (k : Nat) :
    Dec.toRat ⟨d.m, d.e + (k : Int)⟩ = d.toRat * (10 : ℚ) ^ (k : Int) := by
  unfold Dec.toRat
  rw [zpow_add₀ (by norm_num : (10 : ℚ) ≠ 0)]
  ring

/-! ## Claim C1 -/

/-- C1: for every numeral string and optional scale token, `normalize_amount`
returns the numeral's parsed numeric value multiplied by the scale factor
(billion/bn/b → 10^9, million/mm/m → 10^6, thousand/k → 10^3, absent → 1,
matched case-insensitively), truncated to an integer; in particular
`normalize("10","million") = 10000000` and `normalize("1.5","b") = 1500000000`;
and if the numeral string fails to parse as a number (e.g. `"abc"`), it
returns `None` instead of an integer. -/
theorem normalize_amount_correct :
    (∀ (num : String) (scale : Option String) (d : Dec),
        pyFloatOfChars (num.data.filter (fun c => c ≠ ',')) = some (.finite d) →
        normalize_amount num scale = .ok (some (ratTrunc (d.toRat * claimScaleFactor scale))))
    ∧ (∀ (num : String) (scale : Option String),
        pyFloatOfChars (num.data.filter (fun c => c ≠ ',')) = none →
        normalize_amount num scale = .ok none)
    ∧ normalize_amount "10" (some "million") = .ok (some 10000000)
    ∧ normalize_amount "1.5" (some "b") = .ok (some 1500000000)
    ∧ normalize_amount "abc" none = .ok none := by
  refine ⟨?_, ?_, by decide, by decide, by decide⟩
  · intro num scale d hparse
    unfold normalize_amount claimScaleFactor
    rw [hparse]
    dsimp only
    split_ifs <;>
      simp only [pyMulPow10] <;>
      rw [pyTruncDec_eq]
    · rw [toRat_shift d 9]
      norm_num
    · rw [toRat_shift d 6]
      norm_num
    · rw [toRat_shift d 3]
      norm_num
    · rw [mul_one]
  · intro num scale hparse
    unfold normalize_amount
    rw [hparse]

/-- C1 witness: the general clauses of `normalize_amount_correct` applied at
the concrete input `("2.5", some "K")`. -/
theorem normalize_amount_correct_witness :
    pyFloatOfChars ("2.5".data.filter (fun c => c ≠ ',')) = some (.finite ⟨25, -1⟩)
    ∧ normalize_amount "2.5" (some "K")
        = .ok (some (ratTrunc ((Dec.toRat ⟨25, -1⟩) * claimScaleFactor (some "K")))) :=
  ⟨by decide, normalize_amount_correct.1 "2.5" (some "K") ⟨25, -1⟩ (by decide)⟩

/-! ## Claim C10 -/

/-- C10 counterexample: `normalize_amount` is not total as claimed — on the
numeral `"nan"` the numeral parses as a float (`nan`), no scale branch fires,
and the final `int(num)` (outside the `try` block) raises, so the function
neither returns an integer nor returns `None`. -/
theorem normalize_amount_raises_on_nan :
    normalize_amount "nan" none = .error "int() of non-finite float" := by
  decide

/-- C10 amended: whenever the numeral string does not parse to a non-finite
float (`nan`, `inf`, `-inf`), `normalize_amount` returns normally — an
integer, or `None` exactly when the numeral fails to parse as a number — and
any scale token outside the recognized sets (e.g. `"trillion"`) is silently
treated as the absent scale (multiplier 1). If the numeral parses to `nan` or
an infinity, the final `int(num)` raises an uncaught exception instead. -/
theorem normalize_amount_total_amended :
    (∀ (num : String) (scale : Option String),
        pyFloatOfChars (num.data.filter (fun c => c ≠ ',')) ≠ some .nan →
        pyFloatOfChars (num.data.filter (fun c => c ≠ ',')) ≠ some .inf →
        pyFloatOfChars (num.data.filter (fun c => c ≠ ',')) ≠ some .ninf →
        ∃ r, normalize_amount num scale = .ok r ∧
          (r = none ↔ pyFloatOfChars (num.data.filter (fun c => c ≠ ',')) = none))
    ∧ (∀ (num : String) (scale : Option String),
        strLower (scale.getD "") ∉ recognizedScales →
        normalize_amount num scale = normalize_amount num none) := by
  constructor
  · intro num scale hnan hinf hninf
    rcases hp : pyFloatOfChars (num.data.filter (fun c => c ≠ ',')) with _ | f
    · exact ⟨none, by unfold normalize_amount; rw [hp], by simp⟩
    · cases f with
      | finite d =>
        refine ⟨some (pyTruncDec (match (if strLower (scale.getD "") = "billion"
            || strLower (scale.getD "") = "bn" || strLower (scale.getD "") = "b" then
              pyMulPow10 (.finite d) 9
            else if strLower (scale.getD "") = "million" || strLower (scale.getD "") = "mm"
                || strLower (scale.getD "") = "m" then pyMulPow10 (.finite d) 6
            else if strLower (scale.getD "") = "thousand" || strLower (scale.getD "") = "k" then
              pyMulPow10 (.finite d) 3
            else .finite d) with
          | .finite d1 => d1
          | _ => d)), ?_, by simp [hp]⟩
        unfold normalize_amount
        rw [hp]
        dsimp only
        split_ifs <;> rfl
      | nan => exact absurd hp hnan
      | inf => exact absurd hp hinf
      | ninf => exact absurd hp hninf
  · intro num scale hscale
    have hs : strLower (scale.getD "") ≠ "billion" ∧ strLower (scale.getD "") ≠ "bn"
        ∧ strLower (scale.getD "") ≠ "b" ∧ strLower (scale.getD "") ≠ "million"
        ∧ strLower (scale.getD "") ≠ "mm" ∧ strLower (scale.getD "") ≠ "m"
        ∧ strLower (scale.getD "") ≠ "thousand" ∧ strLower (scale.getD "") ≠ "k" := by
      simp [recognizedScales] at hscale
      tauto
    have hnone : strLower ((none : Option String).getD "") = "" := by decide
    unfold normalize_amount
    rcases hp : pyFloatOfChars (num.data.filter (fun c => c ≠ ',')) with _ | f
    · rfl
    · dsimp only
      rw [hnone]
      have e1 : ("" : String) ≠ "billion" := by decide
      have e2 : ("" : String) ≠ "bn" := by decide
      have e3 : ("" : String) ≠ "b" := by decide
      have e4 : ("" : String) ≠ "million" := by decide
      have e5 : ("" : String) ≠ "mm" := by decide
      have e6 : ("" : String) ≠ "m" := by decide
      have e7 : ("" : String) ≠ "thousand" := by decide
      have e8 : ("" : String) ≠ "k" := by decide
      simp [hs.1, hs.2.1, hs.2.2.1, hs.2.2.2.1, hs.2.2.2.2.1, hs.2.2.2.2.2.1,
        hs.2.2.2.2.2.2.1, hs.2.2.2.2.2.2.2, e1, e2, e3, e4, e5, e6, e7, e8]

/-- C10 witness: the amended clauses applied at the concrete inputs
`("7", some "trillion")` (unrecognized scale) and `("abc", none)`. -/
theorem normalize_amount_total_amended_witness :
    (strLower ((some "trillion" : Option String).getD "") ∉ recognizedScales
      ∧ normalize_amount "7" (some "trillion") = normalize_amount "7" none)
    ∧ (pyFloatOfChars ("abc".data.filter (fun c => c ≠ ',')) ≠ some .nan
      ∧ ∃ r, normalize_amount "abc" none = .ok r ∧
          (r = none ↔ pyFloatOfChars ("abc".data.filter (fun c => c ≠ ',')) = none)) :=
  ⟨⟨by decide, normalize_amount_total_amended.2 "7" (some "trillion") (by decide)⟩,
   ⟨by decide, normalize_amount_total_amended.1 "abc" none (by decide) (by decide) (by decide)⟩⟩

/-! ## Claim C2 -/

theorem extract_amounts_eq :
    ∀ (ms : List (String × Option String)) (vs : List (Option Int)),
      normalize_all ms = .ok vs → extract_amounts ms = .ok (spec_survivors vs) := by
  intro ms
  induction ms with
  | nil =>
    intro vs h
    simp only [normalize_all] at h
    cases h
    rfl
  | cons p rest ih =>
    obtain ⟨s, sc⟩ := p
    intro vs h
    simp only [normalize_all] at h
    rcases ha : normalize_amount s sc with e | a <;> rw [ha] at h
    · cases h
    · rcases hr : normalize_all rest with e | tl <;> rw [hr] at h
      · cases h
      · cases h
        simp only [extract_amounts, ha, ih tl hr]
        cases a with
        | none => rfl
        | some v =>
          simp only [spec_survivors, List.filterMap_cons, id, List.filter_cons,
            Bool.and_eq_true, decide_eq_true_eq, ne_eq]
          split_ifs <;> first | rfl | omega

/-- C2: the amount selection of `extract_article_fields` discards every
normalized amount outside the closed interval `[10000, 10000000000]` and
returns the maximum of the surviving amounts (absent if none survives); in
particular, on the matches of a text containing both `"$5 million"` and
`"$50,000"` it selects 5000000, not 50000. -/
theorem amount_selection_spec :
    (∀ (ms : List (String × Option String)) (vs : List (Option Int)),
        normalize_all ms = .ok vs →
        select_amount ms = .ok (listMax (spec_survivors vs)))
    ∧ select_amount [("5", some "million"), ("50,000", none)] = .ok (some 5000000)
    ∧ select_amount [("5", some "million"), ("50,000", none)] ≠ .ok (some 50000) := by
  refine ⟨?_, by decide, by decide⟩
  intro ms vs h
  unfold select_amount
  rw [extract_amounts_eq ms vs h]
  rfl

/-- C2 witness: the general clause of `amount_selection_spec` applied at the
concrete match list of a text containing `"$5 million"` and `"$50,000"`. -/
theorem amount_selection_spec_witness :
    normalize_all [("5", some "million"), ("50,000", none)] = .ok [some 5000000, some 50000]
    ∧ select_amount [("5", some "million"), ("50,000", none)]
        = .ok (listMax (spec_survivors [some 5000000, some 50000])) :=
  ⟨by decide, amount_selection_spec.1 _ _ (by decide)⟩

/-! ## Claim C3 -/

/-- C3: the date gate keeps a fetched row exactly when a pub_date resolved to
a date `d` with `now - days ≤ d ≤ now` and `d`'s year at least the minimum
year floor (2018); the window boundary `d = now - days` is kept (inclusive),
any `d` strictly after `now` is rejected, and an unresolved pub_date is
rejected outright. Instantiated for `now` = 2024-05-31 with a 30-day window:
2024-05-01 (the boundary) is kept, 2024-06-01 (the future) is rejected, and a
missing date is rejected. -/
theorem date_gate_iff :
    (∀ (pub : Option Int) (now : Int) (days : Nat),
        date_gate pub now days = true ↔
          ∃ d, pub = some d ∧ now - (days : Int) ≤ d ∧ d ≤ now ∧ MIN_YEAR ≤ civilYear d)
    ∧ date_gate (some (daysFromCivil 2024 5 1)) (daysFromCivil 2024 5 31) 30 = true
    ∧ date_gate (some (daysFromCivil 2024 6 1)) (daysFromCivil 2024 5 31) 30 = false
    ∧ date_gate none (daysFromCivil 2024 5 31) 30 = false := by
  refine ⟨?_, by decide, by decide, by decide⟩
  intro pub now days
  cases pub with
  | none => simp [date_gate]
  | some d =>
    simp only [date_gate, Bool.or_eq_true, decide_eq_true_eq, MIN_YEAR]
    split_ifs with hc
    · constructor
      · intro h
        cases h
      · rintro ⟨d1, hd1, h1, h2, h3⟩
        cases hd1
        omega
    · constructor
      · intro h1
        exact ⟨d, rfl, by omega, by omega, by omega⟩
      · intro h1
        rfl

/-! ## Substring characterization -/

theorem lcIsPrefixOf_iff (l1 l2 : List Char) :
    l1.isPrefixOf l2 = true ↔ ∃ post, l1 ++ post = l2 := by
  induction l1 generalizing l2 with
  | nil => simp [List.isPrefixOf]
  | cons a t ih =>
    cases l2 with
    | nil => simp [List.isPrefixOf]
    | cons b u =>
      simp only [List.isPrefixOf, Bool.and_eq_true, beq_iff_eq, ih, List.cons_append,
        List.cons.injEq]
      constructor
      · rintro ⟨rfl, post, rfl⟩
        exact ⟨post, rfl, rfl⟩
      · rintro ⟨post, rfl, rfl⟩
        exact ⟨rfl, post, rfl⟩

theorem lcContainsSub_iff (hay need : List Char) :
    lcContainsSub hay need = true ↔ OccursIn need hay := by
  unfold OccursIn
  induction hay with
  | nil =>
    simp only [lcContainsSub, List.isEmpty_iff]
    constructor
    · rintro rfl
      exact ⟨[], [], rfl⟩
    · rintro ⟨pre, post, h⟩
      rcases List.append_eq_nil.mp h with ⟨h1, h2⟩
      exact (List.append_eq_nil.mp h1).2
  | cons h t ih =>
    simp only [lcContainsSub, Bool.or_eq_true, ih, lcIsPrefixOf_iff]
    constructor
    · rintro (⟨post, hpost⟩ | ⟨pre, post, rfl⟩)
      · exact ⟨[], post, by simpa using hpost⟩
      · exact ⟨h :: pre, post, rfl⟩
    · rintro ⟨pre, post, heq⟩
      cases pre with
      | nil =>
        left
        exact ⟨post, by simpa using heq⟩
      | cons p ps =>
        right
        simp only [List.cons_append, List.cons.injEq] at heq
        exact ⟨ps, post, heq.2⟩

theorem strContainsSub_iff (hay need : String) :
    strContainsSub hay need = true ↔ OccursIn need.data hay.data :=
  lcContainsSub_iff hay.data need.data

/-! ## Claim C4 -/

theorem amount_signal_iff (amount : Option Int) :
    MIN_AMOUNT_FOR_SIGNAL ≤ amount.getD 0 ↔
      ∃ v, amount = some v ∧ MIN_AMOUNT_FOR_SIGNAL ≤ v := by
  cases amount with
  | none => simp [MIN_AMOUNT_FOR_SIGNAL]
  | some v => simp

/-- C4: for a candidate whose HTML was fetched, the funding-signal gate passes
if and only if (a) the title or snippet contains a hard funding keyword as a
case-insensitive substring, or (b) the normalized amount is at least the
minimum USD floor (100000), or (c) a round label was extracted; and for a
candidate whose HTML fetch failed, the row is kept exactly when gate (a) alone
passes on the search-result title/snippet. -/
theorem funding_signal_gate_iff :
    (∀ (title snippet : String) (amount : Option Int) (round : String),
        funding_signal_gate title snippet amount round = true ↔
          (KeywordHit FUNDING_HARD_KEYWORDS title snippet
            ∨ (∃ v, amount = some v ∧ MIN_AMOUNT_FOR_SIGNAL ≤ v)
            ∨ round ≠ ""))
    ∧ (∀ (title snippet : String),
        no_html_keep title snippet = true ↔
          KeywordHit FUNDING_HARD_KEYWORDS title snippet) := by
  have htext : ∀ title snippet : String,
      text_signal title snippet = true ↔ KeywordHit FUNDING_HARD_KEYWORDS title snippet := by
    intro title snippet
    unfold text_signal KeywordHit
    rw [List.any_eq_true]
    constructor
    · rintro ⟨k, hk, hsub⟩
      rcases Bool.or_eq_true_iff.mp hsub with h | h
      · exact ⟨k, hk, Or.inl ((strContainsSub_iff _ _).mp h)⟩
      · exact ⟨k, hk, Or.inr ((strContainsSub_iff _ _).mp h)⟩
    · rintro ⟨k, hk, h | h⟩
      · exact ⟨k, hk, Bool.or_eq_true_iff.mpr (Or.inl ((strContainsSub_iff _ _).mpr h))⟩
      · exact ⟨k, hk, Bool.or_eq_true_iff.mpr (Or.inr ((strContainsSub_iff _ _).mpr h))⟩
  constructor
  · intro title snippet amount round
    unfold funding_signal_gate
    simp only [Bool.or_eq_true, decide_eq_true_eq, htext, amount_signal_iff, ne_eq]
    exact or_assoc
  · exact htext

/-! ## Claim C7 -/

/-- C7: `should_skip_result` drops a search-result candidate if and only if
the resolved host (netloc with `"www."` removed, lower-cased) is in the fixed
job-board domain denylist, or the title or URL contains a job-related keyword
as a case-insensitive substring; in particular a candidate titled
"We are Hiring: Robotics Engineer" on a news domain is dropped. -/
theorem should_skip_result_iff :
    (∀ (link title : String),
        should_skip_result link title = true ↔
          (hostOf link ∈ JOB_DOMAINS
            ∨ ∃ k ∈ JOB_KEYWORDS, OccursIn k.data (strLower title).data
                ∨ OccursIn k.data (strLower link).data))
    ∧ should_skip_result "https://techcrunch.com/2024/05/x"
        "We are Hiring: Robotics Engineer" = true
    ∧ hostOf "https://techcrunch.com/2024/05/x" ∉ JOB_DOMAINS := by
  refine ⟨?_, by decide, by decide⟩
  intro link title
  unfold should_skip_result
  dsimp only
  split_ifs with h1 h2
  · simp only [true_iff]
    left
    rw [← List.elem_iff]
    exact h1
  · simp only [true_iff]
    right
    rcases List.any_eq_true.mp h2 with ⟨k, hk, hsub⟩
    rcases Bool.or_eq_true_iff.mp hsub with h | h
    · exact ⟨k, hk, Or.inl ((strContainsSub_iff _ _).mp h)⟩
    · exact ⟨k, hk, Or.inr ((strContainsSub_iff _ _).mp h)⟩
  · simp only [false_iff]
    push_neg
    constructor
    · intro hmem
      exact h1 (List.elem_iff.mpr hmem)
    · intro k hk
      constructor
      · intro h
        exact h2 (List.any_eq_true.mpr
          ⟨k, hk, Bool.or_eq_true_iff.mpr (Or.inl ((strContainsSub_iff _ _).mpr h))⟩)
      · intro h
        exact h2 (List.any_eq_true.mpr
          ⟨k, hk, Bool.or_eq_true_iff.mpr (Or.inr ((strContainsSub_iff _ _).mpr h))⟩)

/-! ## Claim C5 -/

theorem orderedInsert_filter_of_neg (p : MidRow → Bool) (a : MidRow) (l : List MidRow)
    (hpa : p a = false) :
    (List.orderedInsert rowLE a l).filter p = l.filter p := by
  induction l with
  | nil => simp [List.orderedInsert, hpa]
  | cons b t ih =>
    simp only [List.orderedInsert]
    split_ifs with h
    · simp [List.filter_cons, hpa]
    · simp only [List.filter_cons]
      split_ifs <;> simp [ih]

theorem orderedInsert_filter_of_keyEq (a : MidRow) (l : List MidRow) :
    (List.orderedInsert rowLE a l).filter
        (fun r => r.pub_date_parsed = a.pub_date_parsed ∧ r.amount_int = a.amount_int)
      = a :: l.filter
        (fun r => r.pub_date_parsed = a.pub_date_parsed ∧ r.amount_int = a.amount_int) := by
  induction l with
  | nil => simp [List.orderedInsert]
  | cons b t ih =>
    simp only [List.orderedInsert]
    split_ifs with h
    · simp [List.filter_cons]
    · have hb : ¬(b.pub_date_parsed = a.pub_date_parsed ∧ b.amount_int = a.amount_int) := by
        rintro ⟨h1, h2⟩
        exact h (Or.inr ⟨h1.symm, le_of_eq h2⟩)
      rw [List.filter_cons, if_neg (by simpa using hb), List.filter_cons,
        if_neg (by simpa using hb)]
      exact ih

/-- C5: the Recency Loader's sort is a permutation of the kept rows, ordered
by publish date descending with ties broken by amount descending, and stable:
for every key (date, amount) the rows with exactly that key keep their
original relative order. Concretely, rows dated 2024-05-01 with amounts $1M
and $5M and a row dated 2024-05-02 with amount $1 sort to
(2024-05-02/$1, 2024-05-01/$5M, 2024-05-01/$1M). -/
theorem sortRows_spec :
    (∀ rows : List MidRow, (sortRows rows).Perm rows)
    ∧ (∀ rows : List MidRow, (sortRows rows).Sorted rowLE)
    ∧ (∀ (rows : List MidRow) (dk ak : Int),
        (sortRows rows).filter (fun r => r.pub_date_parsed = dk ∧ r.amount_int = ak)
          = rows.filter (fun r => r.pub_date_parsed = dk ∧ r.amount_int = ak))
    ∧ sortRows [exMid "r1" (daysFromCivil 2024 5 1) 1000000,
                exMid "r2" (daysFromCivil 2024 5 1) 5000000,
                exMid "r3" (daysFromCivil 2024 5 2) 1]
        = [exMid "r3" (daysFromCivil 2024 5 2) 1,
           exMid "r2" (daysFromCivil 2024 5 1) 5000000,
           exMid "r1" (daysFromCivil 2024 5 1) 1000000] := by
  refine ⟨fun rows => List.perm_insertionSort rowLE rows,
    fun rows => List.sorted_insertionSort rowLE rows, ?_, by decide⟩
  intro rows dk ak
  induction rows with
  | nil => rfl
  | cons a t ih =>
    simp only [sortRows, List.insertionSort] at *
    by_cases ha : a.pub_date_parsed = dk ∧ a.amount_int = ak
    · obtain ⟨h1, h2⟩ := ha
      subst h1
      subst h2
      rw [orderedInsert_filter_of_keyEq, List.filter_cons, if_pos (by simp), ih]
    · rw [orderedInsert_filter_of_neg _ _ _ (by simpa using ha), ih,
        List.filter_cons, if_neg (by simpa using ha)]

/-! ## Claim C6 -/

/-- C6 counterexample: on a row whose `round` cell is missing (`NaN`), i.e.
the round field is not a non-empty label, `tag_row` nevertheless appends a
third tag — the string `"nan"` produced by `str(row.get("round") or "")` on
the truthy float `NaN` — so the claimed output (exactly the amount tag
followed by the investor tag, round tag only for a non-empty round) is wrong. -/
theorem tag_row_nan_round_counterexample :
    tag_row 12000000 (.str "Led by a16z and Accel") Cell.nan = "大额, 知名投资方, nan"
    ∧ tag_row 12000000 (.str "Led by a16z and Accel") Cell.nan ≠ "大额, 知名投资方" := by
  constructor
  · decide
  · decide

/-- C6 amended: `tag_row` joins, comma-separated and in the fixed order
(amount tag, investor tag, round tag): the large-round tag exactly when the
amount is at least 10000000, the notable-investor tag exactly when the
stringified investors text contains some watchlist name as a case-insensitive
substring (no word boundary), and the *stringified* round field exactly when
that stringification is non-empty — a missing (`NaN`) round stringifies to
`"nan"` and is therefore tagged `"nan"`, not omitted. With a truly empty
round string, investors "Led by a16z and Accel" on a $12M round yield exactly
"大额, 知名投资方". -/
theorem tag_row_amended :
    (∀ (amt : Int) (inv rnd : Cell),
        tag_row amt inv rnd =
          String.intercalate ", "
            ((if BIG_ROUND_USD ≤ amt then ["大额"] else [])
              ++ (if NOTABLE_INVESTORS.any
                    (fun n => strContainsSub (strLower (strOrEmpty inv)) (strLower n))
                  then ["知名投资方"] else [])
              ++ (if strOrEmpty rnd ≠ "" then [strOrEmpty rnd] else [])))
    ∧ (∀ inv : Cell,
        NOTABLE_INVESTORS.any
            (fun n => strContainsSub (strLower (strOrEmpty inv)) (strLower n)) = true
          ↔ ∃ name ∈ NOTABLE_INVESTORS,
              OccursIn (strLower name).data (strLower (strOrEmpty inv)).data)
    ∧ tag_row 12000000 (.str "Led by a16z and Accel") (.str "") = "大额, 知名投资方" := by
  refine ⟨?_, ?_, by decide⟩
  · intro amt inv rnd
    unfold tag_row
    dsimp only
    split_ifs <;> rfl
  · intro inv
    rw [List.any_eq_true]
    constructor
    · rintro ⟨n, hn, hsub⟩
      exact ⟨n, hn, (strContainsSub_iff _ _).mp hsub⟩
    · rintro ⟨n, hn, hsub⟩
      exact ⟨n, hn, (strContainsSub_iff _ _).mpr hsub⟩

/-! ## Claim C8 -/

/-- C8 counterexample: a kept row whose `investors` cell is missing (`NaN`)
yields a DigestRow whose `investors` field is the string `"nan"` — the
`astype(str)` renders `NaN` as `"nan"` and the subsequent `fillna("")` never
fires — not the empty string the claim promises. -/
theorem digest_nan_counterexample :
    (load_and_filter [exRawC8] (daysFromCivil 2024 5 2) 7).map DigestRow.investors = ["nan"]
    ∧ ("nan" : String) ≠ "" := by
  constructor
  · decide
  · decide

/-- C8 amended: every DigestRow's string fields are (non-null) strings
obtained by Python `str()` rendering of the source cells: a present string is
kept as is, but a missing (`NaN`) value is rendered as `"nan"` and a
synthesized-column `None` as `"None"` — the empty string is not substituted
(the `fillna("")` after `astype(str)` is dead). -/
theorem digest_fields_amended :
    (∀ (rows : List RawRow) (now : Int) (days : Nat) (dr : DigestRow),
        dr ∈ load_and_filter rows now days →
        ∃ m ∈ sortRows (filter_recent rows now days),
          dr.title = coerce_str m.raw.title
          ∧ dr.round = coerce_str m.raw.round
          ∧ dr.investors = coerce_str m.raw.investors
          ∧ dr.source_domain = coerce_str m.raw.source_domain
          ∧ dr.source_url = coerce_str m.raw.source_url
          ∧ dr.query = coerce_str m.raw.query
          ∧ dr.snippet = coerce_str m.raw.snippet
          ∧ dr.tags = tag_row m.amount_int m.raw.investors m.raw.round)
    ∧ (∀ s, coerce_str (.str s) = s)
    ∧ coerce_str Cell.nan = "nan"
    ∧ coerce_str Cell.pynone = "None" := by
  refine ⟨?_, fun s => rfl, rfl, rfl⟩
  intro rows now days dr hdr
  rcases List.mem_map.mp hdr with ⟨m, hm, rfl⟩
  exact ⟨m, hm, rfl, rfl, rfl, rfl, rfl, rfl, rfl, rfl⟩

/-- C8 witness: the amended clause applied to the concrete row `exRawC8`. -/
theorem digest_fields_amended_witness :
    exDigestC8 ∈ load_and_filter [exRawC8] (daysFromCivil 2024 5 2) 7
    ∧ ∃ m ∈ sortRows (filter_recent [exRawC8] (daysFromCivil 2024 5 2) 7),
        exDigestC8.title = coerce_str m.raw.title
        ∧ exDigestC8.round = coerce_str m.raw.round
        ∧ exDigestC8.investors = coerce_str m.raw.investors
        ∧ exDigestC8.source_domain = coerce_str m.raw.source_domain
        ∧ exDigestC8.source_url = coerce_str m.raw.source_url
        ∧ exDigestC8.query = coerce_str m.raw.query
        ∧ exDigestC8.snippet = coerce_str m.raw.snippet
        ∧ exDigestC8.tags = tag_row m.amount_int m.raw.investors m.raw.round :=
  ⟨by decide, digest_fields_amended.1 [exRawC8] (daysFromCivil 2024 5 2) 7 exDigestC8 (by decide)⟩

/-! ## Claim C9 -/

/-- C9 counterexample: a kept row whose stored amount is `"-5"` is coerced to
the negative integer −5 — the coercion does not clamp to non-negative values
as the claim asserts. -/
theorem amount_negative_counterexample :
    (load_and_filter [exRawC9] (daysFromCivil 2024 5 2) 7).map DigestRow.amount_usd_int = [-5]
    ∧ (-5 : Int) < 0 := by
  constructor
  · decide
  · decide

/-- C9 amended: for every kept row the Recency Loader coerces the amount
field by `pd.to_numeric` → `fillna(0)` → `astype(int)`: an unparseable or
missing value becomes 0; a finite parse whose truncation toward zero fits in
int64 becomes that (possibly negative) truncation — there is no
non-negativity clamp; a non-finite parse (e.g. `"inf"`) makes `astype(int)`
raise, aborting the load; an out-of-range finite value is cast
platform-dependently and is not certified. The pipeline's amount equals the
coercion's value whenever the coercion returns. -/
theorem amount_coercion_amended :
    (∀ c : Cell, pd_to_numeric c = .nan → amount_coerce c = .ok 0)
    ∧ (∀ (c : Cell) (d : Dec), pd_to_numeric c = .finite d →
        INT64_MIN ≤ ratTrunc d.toRat → ratTrunc d.toRat ≤ INT64_MAX →
        amount_coerce c = .ok (ratTrunc d.toRat))
    ∧ (∀ c : Cell, pd_to_numeric c = .inf ∨ pd_to_numeric c = .ninf →
        amount_coerce c = .error "Cannot convert non-finite values (NA or inf) to integer")
    ∧ (∀ (rows : List RawRow) (now : Int) (days : Nat) (m : MidRow) (t : Int),
        m ∈ filter_recent rows now days →
        amount_coerce m.raw.amount_usd = .ok t →
        m.amount_int = t) := by
  refine ⟨?_, ?_, ?_, ?_⟩
  · intro c h
    unfold amount_coerce
    rw [h]
    decide
  · intro c d h h1 h2
    rw [← pyTruncDec_eq] at h1 h2
    unfold amount_coerce fillna0
    rw [h]
    unfold astype_int64
    dsimp only
    rw [if_pos ⟨h1, h2⟩, pyTruncDec_eq]
  · intro c h
    unfold amount_coerce
    rcases h with h | h <;> rw [h] <;> rfl
  · intro rows now days m t hm hc
    rcases List.mem_filterMap.mp hm with ⟨r, hr, hfr⟩
    rcases hp : parse_date r.pub_date with _ | dte <;> rw [hp] at hfr
    · cases hfr
    · dsimp only at hfr
      split_ifs at hfr
      cases hfr
      dsimp only at hc ⊢
      unfold to_amount_int
      rw [hc]

/-- C9 witness: the amended clauses applied at concrete inputs: the
unparseable cell `"abc"` (→ 0), the numeric cell `"5.7"` (→ trunc 5.7 = 5),
the infinite cell `"inf"` (→ raise), and the kept row `exRawC9`
(amount `"-5"` → −5). -/
theorem amount_coercion_amended_witness :
    (pd_to_numeric (Cell.str "abc") = .nan ∧ amount_coerce (Cell.str "abc") = .ok 0)
    ∧ (pd_to_numeric (Cell.str "5.7") = .finite ⟨57, -1⟩
      ∧ INT64_MIN ≤ ratTrunc (Dec.toRat ⟨57, -1⟩)
      ∧ ratTrunc (Dec.toRat ⟨57, -1⟩) ≤ INT64_MAX
      ∧ amount_coerce (Cell.str "5.7") = .ok (ratTrunc (Dec.toRat ⟨57, -1⟩)))
    ∧ (pd_to_numeric (Cell.str "inf") = .inf
      ∧ amount_coerce (Cell.str "inf")
          = .error "Cannot convert non-finite values (NA or inf) to integer")
    ∧ (exMidC9 ∈ filter_recent [exRawC9] (daysFromCivil 2024 5 2) 7
      ∧ amount_coerce exMidC9.raw.amount_usd = .ok (-5)
      ∧ exMidC9.amount_int = -5) := by
  have htr : ratTrunc (Dec.toRat ⟨57, -1⟩) = 5 := by
    rw [← pyTruncDec_eq]
    decide
  refine ⟨⟨by decide, amount_coercion_amended.1 (Cell.str "abc") (by decide)⟩,
    ⟨by decide, by rw [htr]; decide, by rw [htr]; decide,
      amount_coercion_amended.2.1 (Cell.str "5.7") ⟨57, -1⟩ (by decide)
        (by rw [htr]; decide) (by rw [htr]; decide)⟩,
    ⟨by decide, amount_coercion_amended.2.2.1 (Cell.str "inf") (Or.inl (by decide))⟩,
    ⟨by decide, by decide,
      amount_coercion_amended.2.2.2 [exRawC9] (daysFromCivil 2024 5 2) 7 exMidC9 (-5)
        (by decide) (by decide)⟩⟩
